import Mathlib

/-!
Verification of `src/cdk/overlay/keyboard/overlay-keyboard-dispatcher.ts`
(`OverlayKeyboardDispatcher`), a single-listener keyboard event router for
stacked overlay surfaces.

Shallow embedding choices:
* An `OverlayRef` handle is identified by reference identity; we model a
  handle as a `Nat` identifier.
* The DOM is abstracted by an environment `Env` giving each handle's
  `overlayElement` (its root element, also a `Nat` identifier) and a
  containment predicate `contains root node` standing for
  `root.contains(node)`.
* A keyboard event is represented by its `target` node (the only part of
  the event the dispatcher inspects).
* The dispatcher's mutable fields `_attachedOverlays : OverlayRef[]` and
  `private _isAttached : boolean` become a `DispatcherState` record; each
  method becomes a pure state transformer.  The process-wide `keydown`
  listener binding on `document.body` is observable exactly through the
  `_isAttached` flag (the code adds the listener iff it flips the flag to
  `true` and removes it iff it flips the flag to `false`).
* `_keydownListener` delivers the event to one overlay's sink
  (`_keydownEvents.next(event)`); we model the set of sink invocations a
  single listener call performs as a list of (handle, event) pairs.
-/

namespace OverlayKeyboardDispatcher

/-- An overlay handle (`OverlayRef`), identified by reference identity. -/
abbrev OverlayRef := Nat

/-- Abstraction of the DOM surrounding the dispatcher: each handle's root
element (`overlay.overlayElement`) and the DOM containment relation
(`element.contains(node)`). -/
structure Env where
  overlayElement : OverlayRef → Nat
  contains : Nat → Nat → Bool

/-- The dispatcher's mutable state: `_attachedOverlays` (currently attached
overlays in the order they were attached) and `_isAttached` (whether the
body `keydown` listener is currently bound).  In the source `_isAttached`
starts out `undefined`, i.e. falsy. -/
structure DispatcherState where
  _attachedOverlays : List OverlayRef
  _isAttached : Bool
deriving DecidableEq, Repr

/-- The freshly constructed dispatcher: empty overlay list, listener not
bound (`_isAttached` is `undefined`, falsy). -/
def initialState : DispatcherState := ⟨[], false⟩

/-- Method `add(overlayRef)`: lazily bind the body listener once the first overlay
is added, then push the overlay onto `_attachedOverlays`. -/
def add (overlayRef : OverlayRef) (s : DispatcherState) : DispatcherState :=
  let s₁ := if !s._isAttached then { s with _isAttached := true } else s
  { s₁ with _attachedOverlays := s₁._attachedOverlays ++ [overlayRef] }

/-- Method `_detach()`: remove the global keyboard listener if it is bound. -/
def _detach (s : DispatcherState) : DispatcherState :=
  if s._isAttached then { s with _isAttached := false } else s

/-- Method `remove(overlayRef)`: `indexOf` + `splice(index, 1)` removes the first
occurrence if present (`index > -1` in JS corresponds to
`indexOf < length` here), then `_detach()` once no overlays remain. -/
def remove (overlayRef : OverlayRef) (s : DispatcherState) : DispatcherState :=
  let index := s._attachedOverlays.indexOf overlayRef
  let s₁ :=
    if index < s._attachedOverlays.length then
      { s with _attachedOverlays := s._attachedOverlays.eraseIdx index }
    else s
  if s₁._attachedOverlays.length = 0 then _detach s₁ else s₁

/-- Method `ngOnDestroy()`: just `this._detach()`. -/
def ngOnDestroy (s : DispatcherState) : DispatcherState := _detach s

/-- The predicate tested inside `_selectOverlayFromEvent`'s `find`:
`overlay.overlayElement === event.target ||
 overlay.overlayElement.contains(event.target)`. -/
def overlayContainsTarget (env : Env) (target : Nat) (overlay : OverlayRef) : Bool :=
  env.overlayElement overlay == target ||
    env.contains (env.overlayElement overlay) target

/-- Method `_selectOverlayFromEvent(event)`: find the first attached overlay whose
root element is or contains the event target; otherwise fall back to the
most recently attached overlay
(`this._attachedOverlays[this._attachedOverlays.length - 1]`, which is
`undefined` — `none` here — on an empty array). -/
def _selectOverlayFromEvent (env : Env) (target : Nat) (s : DispatcherState) :
    Option OverlayRef :=
  match s._attachedOverlays.find? (overlayContainsTarget env target) with
  | some targetedOverlay => some targetedOverlay
  | none => s._attachedOverlays.getLast?

/-- Method `_keydownListener(event)`: if any overlays are attached, dispatch the
event to the selected overlay's `_keydownEvents` sink.  The returned list
records every sink invocation (handle, event) the call performs. -/
def _keydownListener (env : Env) (target : Nat) (s : DispatcherState) :
    List (OverlayRef × Nat) :=
  if s._attachedOverlays.length ≠ 0 then
    match _selectOverlayFromEvent env target s with
    | some overlay => [(overlay, target)]
    | none => []
  else []

/-- A call to the dispatcher's public mutating API. -/
inductive Op where
  | addOp (overlayRef : OverlayRef)
  | removeOp (overlayRef : OverlayRef)
deriving DecidableEq, Repr

/-- Execute one API call on a state. -/
def step (s : DispatcherState) : Op → DispatcherState
  | Op.addOp o => add o s
  | Op.removeOp o => remove o s

/-- Execute a sequence of API calls from a given state. -/
def runFrom (s : DispatcherState) (ops : List Op) : DispatcherState :=
  ops.foldl step s

/-- Execute a sequence of API calls on a fresh dispatcher. -/
def run (ops : List Op) : DispatcherState := runFrom initialState ops

/-- Holds (as `true`) when, replayed from `s`, every `add` in the sequence is given a
handle not currently attached (the discipline the spec demands of
callers). -/
def addsAreFresh : DispatcherState → List Op → Bool
  | _, [] => true
  | s, Op.addOp o :: rest =>
      !(s._attachedOverlays.contains o) && addsAreFresh (add o s) rest
  | s, Op.removeOp o :: rest => addsAreFresh (remove o s) rest

/-! Basic characterizations of the state transformers. -/

theorem add_attachedOverlays (o : OverlayRef) (s : DispatcherState) :
    (add o s)._attachedOverlays = s._attachedOverlays ++ [o] := by
  simp only [add]
  split <;> rfl

theorem add_isAttached (o : OverlayRef) (s : DispatcherState) :
    (add o s)._isAttached = true := by
  simp only [add]
  cases h : s._isAttached <;> simp [h]

theorem detach_attachedOverlays (s : DispatcherState) :
    (_detach s)._attachedOverlays = s._attachedOverlays := by
  simp only [_detach]
  split <;> rfl

theorem detach_isAttached (s : DispatcherState) :
    (_detach s)._isAttached = false := by
  simp only [_detach]
  split <;> simp_all

theorem remove_attachedOverlays (o : OverlayRef) (s : DispatcherState) :
    (remove o s)._attachedOverlays = s._attachedOverlays.erase o := by
  simp only [remove]
  by_cases h : o ∈ s._attachedOverlays
  · have hlt : s._attachedOverlays.indexOf o < s._attachedOverlays.length :=
      List.indexOf_lt_length.mpr h
    simp only [hlt, if_pos]
    split <;> simp [detach_attachedOverlays, List.eraseIdx_indexOf_eq_erase]
  · have hge : ¬ s._attachedOverlays.indexOf o < s._attachedOverlays.length := by
      simpa [List.indexOf_lt_length] using h
    simp only [hge, if_neg, not_false_iff]
    split <;> simp [detach_attachedOverlays, List.erase_of_not_mem h]

theorem remove_isAttached (o : OverlayRef) (s : DispatcherState) :
    (remove o s)._isAttached =
      if (s._attachedOverlays.erase o).length = 0 then false
      else s._isAttached := by
  simp only [remove]
  by_cases h : o ∈ s._attachedOverlays
  · have hlt : s._attachedOverlays.indexOf o < s._attachedOverlays.length :=
      List.indexOf_lt_length.mpr h
    simp only [hlt, if_pos]
    split <;>
      simp_all [detach_isAttached, List.eraseIdx_indexOf_eq_erase]
  · have hge : ¬ s._attachedOverlays.indexOf o < s._attachedOverlays.length := by
      simpa [List.indexOf_lt_length] using h
    have he : s._attachedOverlays.erase o = s._attachedOverlays :=
      List.erase_of_not_mem h
    simp only [hge, if_neg, not_false_iff]
    rw [he]
    by_cases hz : s._attachedOverlays.length = 0
    · simp [hz, detach_isAttached]
    · simp [hz]

theorem runFrom_cons (s : DispatcherState) (op : Op) (ops : List Op) :
    runFrom s (op :: ops) = runFrom (step s op) ops := rfl

theorem find?_first_hit {p : OverlayRef → Bool} (l₁ l₂ : List OverlayRef)
    (o : OverlayRef) (hhit : p o = true)
    (hbefore : ∀ x ∈ l₁, p x = false) :
    (l₁ ++ o :: l₂).find? p = some o := by
  induction l₁ with
  | nil => simp [List.find?_cons, hhit]
  | cons x xs ih =>
      have hx : p x = false := hbefore x (by simp)
      rw [List.cons_append, List.find?_cons_of_neg _ (by simp [hx])]
      exact ih (fun y hy => hbefore y (by simp [hy]))

/-- Claim C1: whenever some attached overlay's root element is, or contains,
the event target, the keydown dispatch delivers the event exactly to the
first such overlay in attachment order (the oldest-attached containing
overlay), regardless of what is attached after it. -/
theorem dispatch_routes_to_oldest_containing_overlay
    (env : Env) (target : Nat) (s : DispatcherState)
    (l₁ l₂ : List OverlayRef) (o : OverlayRef)
    (hreg : s._attachedOverlays = l₁ ++ o :: l₂)
    (hhit : overlayContainsTarget env target o = true)
    (hbefore : ∀ x ∈ l₁, overlayContainsTarget env target x = false) :
    _keydownListener env target s = [(o, target)] := by
  have hfind : s._attachedOverlays.find? (overlayContainsTarget env target) = some o := by
    rw [hreg]; exact find?_first_hit l₁ l₂ o hhit hbefore
  have hlen : s._attachedOverlays.length ≠ 0 := by simp [hreg]
  simp [_keydownListener, _selectOverlayFromEvent, hlen, hfind]

theorem dispatch_routes_to_oldest_containing_overlay_witness :
    _keydownListener ⟨fun o => o, fun e n => (e == 1 || e == 2) && n == 50⟩ 50
      ⟨[3, 1, 2], true⟩ = [(1, 50)] :=
  dispatch_routes_to_oldest_containing_overlay _ 50 _ [3] [2] 1 rfl
    (by decide) (by decide)

/-- Claim C2: when the registry is non-empty and no attached overlay's root
element is or contains the event target, the keydown dispatch delivers the
event exactly to the most recently attached overlay (the tail of the
registry). -/
theorem dispatch_falls_back_to_most_recent
    (env : Env) (target : Nat) (s : DispatcherState)
    (hne : s._attachedOverlays ≠ [])
    (hmiss : ∀ x ∈ s._attachedOverlays, overlayContainsTarget env target x = false) :
    _keydownListener env target s = [(s._attachedOverlays.getLast hne, target)] := by
  have hfind : s._attachedOverlays.find? (overlayContainsTarget env target) = none :=
    List.find?_eq_none.mpr (fun x hx => by simp [hmiss x hx])
  have hlast : s._attachedOverlays.getLast? = some (s._attachedOverlays.getLast hne) :=
    List.getLast?_eq_getLast_of_ne_nil hne
  have hlen : s._attachedOverlays.length ≠ 0 := by
    simpa [List.length_eq_zero] using hne
  simp [_keydownListener, _selectOverlayFromEvent, hlen, hfind, hlast]

theorem dispatch_falls_back_to_most_recent_witness :
    _keydownListener ⟨fun o => o + 100, fun _ _ => false⟩ 5
      ⟨[1, 2, 3], true⟩ = [(3, 5)] :=
  dispatch_falls_back_to_most_recent ⟨fun o => o + 100, fun _ _ => false⟩ 5
    ⟨[1, 2, 3], true⟩ (by decide) (by decide)

/-- Claim C5: every keydown event handled while the registry is non-empty is
delivered to exactly one attached overlay's sink, exactly once, with that
event, and to no other sink. -/
theorem keydown_delivers_exactly_once
    (env : Env) (target : Nat) (s : DispatcherState)
    (hne : s._attachedOverlays ≠ []) :
    ∃ o, o ∈ s._attachedOverlays ∧
      _keydownListener env target s = [(o, target)] := by
  have hlen : s._attachedOverlays.length ≠ 0 := by
    simpa [List.length_eq_zero] using hne
  cases hfind : s._attachedOverlays.find? (overlayContainsTarget env target) with
  | some o =>
      exact ⟨o, List.mem_of_find?_eq_some hfind,
        by simp [_keydownListener, _selectOverlayFromEvent, hlen, hfind]⟩
  | none =>
      refine ⟨s._attachedOverlays.getLast hne, List.getLast_mem hne, ?_⟩
      simp [_keydownListener, _selectOverlayFromEvent, hlen, hfind,
        List.getLast?_eq_getLast_of_ne_nil hne]

theorem keydown_delivers_exactly_once_witness :
    ∃ o, o ∈ (⟨[5], true⟩ : DispatcherState)._attachedOverlays ∧
      _keydownListener ⟨fun o => o, fun _ _ => false⟩ 0 ⟨[5], true⟩ = [(o, 0)] :=
  keydown_delivers_exactly_once ⟨fun o => o, fun _ _ => false⟩ 0 ⟨[5], true⟩
    (by decide)

/-- Claim C9: a keydown event handled while the registry is empty is simply
dropped: the guard in `_keydownListener` fires before target resolution,
no sink is invoked, and (being a total function) no error is raised. -/
theorem keydown_empty_registry_drops_event (env : Env) (target : Nat) (b : Bool) :
    _keydownListener env target ⟨[], b⟩ = [] := by
  simp [_keydownListener]

theorem step_preserves_listener_inv (s : DispatcherState) (op : Op)
    (h : s._isAttached = !s._attachedOverlays.isEmpty) :
    (step s op)._isAttached = !(step s op)._attachedOverlays.isEmpty := by
  cases op with
  | addOp o => simp [step, add_isAttached, add_attachedOverlays]
  | removeOp o =>
      simp only [step, remove_isAttached, remove_attachedOverlays]
      by_cases hz : (s._attachedOverlays.erase o).length = 0
      · simp [hz, List.length_eq_zero.mp hz]
      · have hne : s._attachedOverlays.erase o ≠ [] := by
          simpa [List.length_eq_zero] using hz
        have hne₀ : s._attachedOverlays ≠ [] := by
          intro hnil
          exact hne (by simp [hnil])
        have h1 : s._attachedOverlays.isEmpty = false := by
          cases hc : s._attachedOverlays with
          | nil => exact absurd hc hne₀
          | cons x xs => rfl
        have h2 : (s._attachedOverlays.erase o).isEmpty = false := by
          cases hc : s._attachedOverlays.erase o with
          | nil => exact absurd hc hne
          | cons x xs => rfl
        simp [hz, h, h1, h2]

/-- Claim C3: after any finite sequence of `add`/`remove` calls from the
initial state, the body keydown listener is bound if and only if the
registry of attached overlays is non-empty. -/
theorem listener_bound_iff_registry_nonempty (ops : List Op) :
    (run ops)._isAttached = true ↔ (run ops)._attachedOverlays ≠ [] := by
  have main : ∀ (ops : List Op) (s : DispatcherState),
      s._isAttached = !s._attachedOverlays.isEmpty →
      (runFrom s ops)._isAttached = !(runFrom s ops)._attachedOverlays.isEmpty := by
    intro ops
    induction ops with
    | nil => intro s h; exact h
    | cons op rest ih =>
        intro s h
        rw [runFrom_cons]
        exact ih _ (step_preserves_listener_inv s op h)
  have h := main ops initialState rfl
  rw [run] at *
  rw [h]
  simp [List.isEmpty_iff]

/-- Claim C4: `remove` deletes exactly the first occurrence of the given
handle, preserving the relative order of the remaining entries; removing
an absent handle leaves the registry unchanged; and if the registry is
empty after the call, the listener is unbound. -/
theorem remove_first_occurrence_spec (s : DispatcherState) (o : OverlayRef) :
    (∀ l₁ l₂, s._attachedOverlays = l₁ ++ o :: l₂ → o ∉ l₁ →
      (remove o s)._attachedOverlays = l₁ ++ l₂) ∧
    (o ∉ s._attachedOverlays → (remove o s)._attachedOverlays = s._attachedOverlays) ∧
    ((remove o s)._attachedOverlays = [] → (remove o s)._isAttached = false) := by
  refine ⟨?_, ?_, ?_⟩
  · intro l₁ l₂ hreg hnot
    rw [remove_attachedOverlays, hreg, List.erase_append_right _ hnot,
      List.erase_cons_head]
  · intro hnot
    rw [remove_attachedOverlays, List.erase_of_not_mem hnot]
  · intro hempty
    rw [remove_attachedOverlays] at hempty
    rw [remove_isAttached, hempty]
    simp

theorem remove_first_occurrence_spec_witness :
    (remove 2 ⟨[1, 2, 3, 2, 4], true⟩)._attachedOverlays = [1, 3, 2, 4] ∧
    (remove 7 ⟨[1, 2, 3, 2, 4], true⟩)._attachedOverlays = [1, 2, 3, 2, 4] ∧
    (remove 1 ⟨[1], true⟩)._isAttached = false :=
  ⟨(remove_first_occurrence_spec ⟨[1, 2, 3, 2, 4], true⟩ 2).1 [1] [3, 2, 4]
      rfl (by decide),
   (remove_first_occurrence_spec ⟨[1, 2, 3, 2, 4], true⟩ 7).2.1 (by decide),
   (remove_first_occurrence_spec ⟨[1], true⟩ 1).2.2 (by decide)⟩

/-- Claim C6 counterexample: `ngOnDestroy` only calls `_detach`; on the
state with registry `[1]` and a bound listener, the registry afterwards is
still `[1]`, not empty — teardown does not clear the registry. -/
theorem ngOnDestroy_leaves_registry_nonempty :
    (ngOnDestroy ⟨[1], true⟩)._attachedOverlays = [1] ∧
    ¬ (ngOnDestroy ⟨[1], true⟩)._attachedOverlays = [] := by
  exact ⟨rfl, by decide⟩

/-- Claim C6 (amended): for every dispatcher state, `ngOnDestroy`
force-unbinds the keydown listener, and leaves the registry exactly as it
was (it does not clear it). -/
theorem ngOnDestroy_unbinds_and_preserves_registry (s : DispatcherState) :
    (ngOnDestroy s)._isAttached = false ∧
    (ngOnDestroy s)._attachedOverlays = s._attachedOverlays :=
  ⟨detach_isAttached s, detach_attachedOverlays s⟩

/-- Claim C7 counterexample: calling `add` twice with the same handle from
the initial state yields the registry `[1, 1]`, in which the handle
appears twice simultaneously. -/
theorem duplicate_registration_duplicates_entry :
    (run [Op.addOp 1, Op.addOp 1])._attachedOverlays = [1, 1] ∧
    ¬ (run [Op.addOp 1, Op.addOp 1])._attachedOverlays.Nodup := by
  exact ⟨rfl, by decide⟩

theorem addsAreFresh_preserves_nodup :
    ∀ (ops : List Op) (s : DispatcherState),
      s._attachedOverlays.Nodup → addsAreFresh s ops = true →
      (runFrom s ops)._attachedOverlays.Nodup := by
  intro ops
  induction ops with
  | nil => intro s h _; exact h
  | cons op rest ih =>
      intro s h hfresh
      cases op with
      | addOp o =>
          simp only [addsAreFresh, Bool.and_eq_true] at hfresh
          rw [runFrom_cons]
          apply ih (add o s) _ hfresh.2
          rw [add_attachedOverlays]
          have ho : o ∉ s._attachedOverlays := by
            have := hfresh.1
            simp only [Bool.not_eq_true'] at this
            simpa using this
          simp [List.nodup_append, h, ho]
      | removeOp o =>
          simp only [addsAreFresh] at hfresh
          rw [runFrom_cons]
          apply ih (remove o s) _ hfresh
          rw [remove_attachedOverlays]
          exact h.erase o

/-- Claim C7 (amended): along any finite sequence of `add`/`remove` calls
from the initial state in which `add` is only ever given a handle not
currently attached, no handle appears twice in the registry simultaneously;
`add` itself performs no duplicate check, so registering an already-present
handle does create a duplicate entry (see the counterexample). -/
theorem fresh_adds_no_duplicates (ops : List Op)
    (h : addsAreFresh initialState ops = true) :
    (run ops)._attachedOverlays.Nodup :=
  addsAreFresh_preserves_nodup ops initialState List.nodup_nil h

theorem fresh_adds_no_duplicates_witness :
    addsAreFresh initialState
      [Op.addOp 1, Op.addOp 2, Op.removeOp 1, Op.addOp 1] = true ∧
    (run [Op.addOp 1, Op.addOp 2, Op.removeOp 1, Op.addOp 1])._attachedOverlays.Nodup :=
  ⟨by decide, fresh_adds_no_duplicates _ (by decide)⟩

/-- Claim C8: teardown is idempotent — `ngOnDestroy` twice gives the same
state as once — and calling it when the listener was never attached leaves
the state entirely unchanged (a safe no-op); being a total function, it
raises no error. -/
theorem ngOnDestroy_idempotent (s : DispatcherState) :
    ngOnDestroy (ngOnDestroy s) = ngOnDestroy s ∧
    (s._isAttached = false → ngOnDestroy s = s) := by
  obtain ⟨reg, flag⟩ := s
  cases flag <;> simp [ngOnDestroy, _detach]

theorem ngOnDestroy_idempotent_witness :
    ngOnDestroy (ngOnDestroy initialState) = ngOnDestroy initialState ∧
    initialState._isAttached = false ∧
    ngOnDestroy initialState = initialState :=
  ⟨(ngOnDestroy_idempotent initialState).1, rfl,
    (ngOnDestroy_idempotent initialState).2 rfl⟩

/-- Claim C10: adding the same handle twice (from a state not containing
it) leaves it in the registry in two positions; one subsequent `remove`
deletes only the first occurrence, so the handle stays registered once and
the listener stays bound. -/
theorem double_add_then_remove (a : OverlayRef) (s : DispatcherState)
    (h : a ∉ s._attachedOverlays) :
    (add a (add a s))._attachedOverlays.count a = 2 ∧
    (remove a (add a (add a s)))._attachedOverlays.count a = 1 ∧
    (remove a (add a (add a s)))._isAttached = true := by
  have hreg : (add a (add a s))._attachedOverlays =
      s._attachedOverlays ++ [a] ++ [a] := by
    rw [add_attachedOverlays, add_attachedOverlays]
  have hcount0 : s._attachedOverlays.count a = 0 := List.count_eq_zero.mpr h
  have herase : (add a (add a s))._attachedOverlays.erase a =
      s._attachedOverlays ++ [a] := by
    rw [hreg, List.append_assoc, List.erase_append_right _ h]
    simp [List.erase_cons_head]
  refine ⟨?_, ?_, ?_⟩
  · rw [hreg]
    simp [List.count_append, hcount0]
  · rw [remove_attachedOverlays, herase]
    simp [List.count_append, hcount0]
  · rw [remove_isAttached, herase]
    simp [add_isAttached]

theorem double_add_then_remove_witness :
    (add 1 (add 1 initialState))._attachedOverlays.count 1 = 2 ∧
    (remove 1 (add 1 (add 1 initialState)))._attachedOverlays.count 1 = 1 ∧
    (remove 1 (add 1 (add 1 initialState)))._isAttached = true :=
  double_add_then_remove 1 initialState (by decide)

end OverlayKeyboardDispatcher
